import Mathlib

/-!
# Verification of the waveform scrubber (src/src/components/WaveformScrubber.tsx)

A shallow embedding of the scrubber's pure core: the coordinate mapper
(`pixelToTime` / `progressOf`), the synthetic waveform generator
(`generateWaveform`), the per-bar colouring rule of `drawWaveform`, the
hover/drag interaction state machine, the `formatTime` label formatter, and a
small model of JavaScript IEEE-754 special values (`JSNum`) for the paths where
division by zero and NaN matter.

Numeric code is embedded over an arbitrary `LinearOrderedField` so that the
definitions stay executable; theorems instantiate it at `ℝ` (with `Real.sin` /
`Real.pi` for the trigonometric pipeline) or at `ℚ` where concrete evaluation
is wanted.  `Math.sin` and `Math.PI` are passed as parameters `sin` / `pi`.
-/

namespace WaveformScrubberSpec

/-- The clamp `Math.max(0, Math.min(1, x))` as used in `handleSeek` (line 216) and
`handleMouseMove` (line 202). -/
def clamp01 {α : Type} [LinearOrderedField α] (x : α) : α := max 0 (min 1 x)

/-- The CoordinateMapper operation `pixelToTime`: the body of `handleSeek`
(lines 214-217) with `x = clientX - rect.left` already taken:
`progress = clamp01(x / width); time = progress * duration`. -/
def pixelToTime {α : Type} [LinearOrderedField α] (x w d : α) : α := clamp01 (x / w) * d

/-- The value `handleSeek` passes to `onSeek` for a pointer at `clientX`
over a container measured at `left` / `width` (lines 210-220).
`handleMouseMove` (lines 195-208) computes previewTime/hoverTime by the
same expression. -/
def handleSeekTime {α : Type} [LinearOrderedField α] (left width duration clientX : α) : α :=
  pixelToTime (clientX - left) width duration

/-- The progress ratio computed in `drawWaveform` line 99:
`duration > 0 ? currentTime / duration : 0`. -/
def progressOf {α : Type} [LinearOrderedField α] (t d : α) : α := if 0 < d then t / d else 0

theorem clamp01_nonneg {α : Type} [LinearOrderedField α] (x : α) : 0 ≤ clamp01 x :=
  le_max_left 0 (min 1 x)

theorem clamp01_le_one {α : Type} [LinearOrderedField α] (x : α) : clamp01 x ≤ 1 :=
  max_le zero_le_one (min_le_left 1 x)

/-- C2: for positive width and duration, the pixel-to-time conversion followed
by the time-to-progress conversion is the identity up to boundary clamping:
`progressOf (pixelToTime x w d) d = clamp01 (x / w)` (exact over the
idealised field arithmetic, hence within floating tolerance). -/
theorem pixelToTime_progressOf_roundtrip (x w d : ℚ) (hw : 0 < w) (hd : 0 < d) :
    progressOf (pixelToTime x w d) d = clamp01 (x / w) := by
  unfold progressOf pixelToTime
  rw [if_pos hd, mul_div_assoc, div_self hd.ne', mul_one]

theorem pixelToTime_progressOf_roundtrip_witness :
    progressOf (pixelToTime (1 : ℚ) 2 10) 10 = clamp01 ((1 : ℚ) / 2) :=
  pixelToTime_progressOf_roundtrip 1 2 10 (by norm_num) (by norm_num)

/-! ## WaveformModel: `generateWaveform` (lines 28-62)

The loop body of `generateWaveform`, parametrised by the random draws of one
iteration: `noise` stands for `(Math.random() - 0.5) * 0.3` (a value in
[-0.15, 0.15]), `hasPeak` for the outcome of `Math.random() < 0.05`, and
`peak` for `Math.random() * 0.4` (a value in [0, 0.4]).  The source fixes
`bars = 150`; the bar count is kept as a parameter so that statements about
other counts (and about `barCount = 0`) can be made. -/

def rawAmplitude {α : Type} [LinearOrderedField α] (sin : α → α) (pi : α)
    (bars i : ℕ) (noise : α) (hasPeak : Bool) (peak : α) : α :=
  let position : α := (i : α) / (bars : α)
  let wave1 := sin (position * pi * 8) * (4 / 10)
  let wave2 := sin (position * pi * 16) * (2 / 10)
  let wave3 := sin (position * pi * 32) * (1 / 10)
  let envelope := sin (position * pi * 4) * (5 / 10) + 5 / 10
  let amplitude := (wave1 + wave2 + wave3 + noise) * envelope
  let amplitude := if hasPeak then amplitude + peak else amplitude
  max (1 / 10) (min 1 (|amplitude| + 3 / 10))

/-- The full `generateWaveform` (lines 28-62): the `data` array pushed bar by bar,
with the per-iteration random draws supplied as functions of the index. -/
def generateWaveform {α : Type} [LinearOrderedField α] (sin : α → α) (pi : α)
    (bars : ℕ) (noise : ℕ → α) (hasPeak : ℕ → Bool) (peak : ℕ → α) : List α :=
  (List.range bars).map (fun i => rawAmplitude sin pi bars i (noise i) (hasPeak i) (peak i))

/-- The bar count hard-coded at line 29 (`const bars = 150`). -/
def barsDefault : ℕ := 150

theorem rawAmplitude_bounds {α : Type} [LinearOrderedField α] (sin : α → α) (pi : α)
    (bars i : ℕ) (noise : α) (hasPeak : Bool) (peak : α) :
    1 / 10 ≤ rawAmplitude sin pi bars i noise hasPeak peak ∧
      rawAmplitude sin pi bars i noise hasPeak peak ≤ 1 := by
  unfold rawAmplitude
  refine ⟨le_max_left _ _, max_le (by norm_num) (min_le_left _ _)⟩

/-- C3: `generateWaveform` produces exactly `barCount` amplitudes, every one of
them in [0.1, 1.0], whatever the random draws are; `barCount = 0` yields the
empty series, and the default bar count of the source is 150. -/
theorem generateWaveform_length_range (bars : ℕ) (noise : ℕ → ℝ) (hasPeak : ℕ → Bool)
    (peak : ℕ → ℝ) :
    (generateWaveform Real.sin Real.pi bars noise hasPeak peak).length = bars
    ∧ (∀ a ∈ generateWaveform Real.sin Real.pi bars noise hasPeak peak, 1 / 10 ≤ a ∧ a ≤ 1)
    ∧ generateWaveform Real.sin Real.pi 0 noise hasPeak peak = []
    ∧ (generateWaveform Real.sin Real.pi barsDefault noise hasPeak peak).length = 150 := by
  refine ⟨by simp [generateWaveform], ?_, by simp [generateWaveform], by simp [generateWaveform, barsDefault]⟩
  intro a ha
  simp only [generateWaveform, List.mem_map, List.mem_range] at ha
  obtain ⟨i, -, rfl⟩ := ha
  exact rawAmplitude_bounds Real.sin Real.pi bars i (noise i) (hasPeak i) (peak i)

/-- The amplitude formula exactly as claim C4 words it: the absolute value
taken of the wave-plus-noise sum alone, the envelope multiplied afterwards,
and the optional peak added after the `+ 0.3`.  Modelled from the claim's
words for comparison against the source-derived `rawAmplitude`. -/
def claimAmplitude {α : Type} [LinearOrderedField α] (sin : α → α) (pi : α)
    (bars i : ℕ) (noise : α) (hasPeak : Bool) (peak : α) : α :=
  let position : α := (i : α) / (bars : α)
  let wave1 := sin (position * pi * 8) * (4 / 10)
  let wave2 := sin (position * pi * 16) * (2 / 10)
  let wave3 := sin (position * pi * 32) * (1 / 10)
  let envelope := sin (position * pi * 4) * (5 / 10) + 5 / 10
  max (1 / 10) (min 1 (|wave1 + wave2 + wave3 + noise| * envelope + 3 / 10
    + (if hasPeak then peak else 0)))

/-- C4 counterexample: at `bars = 8`, `i = 1` (position 1/8, where the three
wave terms vanish and the envelope is exactly 1), with the admissible draws
`noise = -0.15`, peak drawn with value `0.3`, the source computes
`clamp(|(-0.15)·1 + 0.3| + 0.3) = 0.45` while the claim's formula gives
`clamp(|-0.15|·1 + 0.3 + 0.3) = 0.75`: the claim's placement of the absolute
value before the envelope and the peak after the `+ 0.3` does not match the
code, which adds the peak inside the absolute value. -/
theorem rawAmplitude_claim_counterexample :
    rawAmplitude Real.sin Real.pi 8 1 (-(3 / 20)) true (3 / 10)
      ≠ claimAmplitude Real.sin Real.pi 8 1 (-(3 / 20)) true (3 / 10) := by
  have h4 : Real.sin (4 * Real.pi) = 0 := by
    have h : (4 : ℝ) * Real.pi = 2 * Real.pi + 2 * Real.pi := by ring
    rw [h, Real.sin_add, Real.sin_two_pi, Real.cos_two_pi]
    ring
  have e1 : ((1 : ℕ) : ℝ) / ((8 : ℕ) : ℝ) * Real.pi * 8 = Real.pi := by push_cast; ring
  have e2 : ((1 : ℕ) : ℝ) / ((8 : ℕ) : ℝ) * Real.pi * 16 = 2 * Real.pi := by push_cast; ring
  have e3 : ((1 : ℕ) : ℝ) / ((8 : ℕ) : ℝ) * Real.pi * 32 = 4 * Real.pi := by push_cast; ring
  have e4 : ((1 : ℕ) : ℝ) / ((8 : ℕ) : ℝ) * Real.pi * 4 = Real.pi / 2 := by push_cast; ring
  simp only [rawAmplitude, claimAmplitude]
  rw [e1, e2, e3, e4, Real.sin_pi, Real.sin_two_pi, h4, Real.sin_pi_div_two]
  norm_num [abs_of_nonneg, abs_of_nonpos]

/-- C4 amended: the generated amplitude equals
`clamp(|(wave1 + wave2 + wave3 + noise)·envelope + peak| + 0.3, 0.1, 1.0)` —
the optional peak is added to the envelope product *inside* the absolute
value, before the `+ 0.3`; when no peak is drawn this coincides with the
claim's formula `clamp(|waves + noise|·envelope + 0.3, 0.1, 1.0)` because the
envelope is non-negative. -/
theorem rawAmplitude_closed_form (bars i : ℕ) (noise peak : ℝ) (hasPeak : Bool) :
    (rawAmplitude Real.sin Real.pi bars i noise hasPeak peak
      = max (1 / 10) (min 1
          (|(Real.sin ((i : ℝ) / (bars : ℝ) * Real.pi * 8) * (4 / 10)
              + Real.sin ((i : ℝ) / (bars : ℝ) * Real.pi * 16) * (2 / 10)
              + Real.sin ((i : ℝ) / (bars : ℝ) * Real.pi * 32) * (1 / 10) + noise)
              * (Real.sin ((i : ℝ) / (bars : ℝ) * Real.pi * 4) * (5 / 10) + 5 / 10)
              + (if hasPeak then peak else 0)| + 3 / 10)))
    ∧ (hasPeak = false →
        rawAmplitude Real.sin Real.pi bars i noise hasPeak peak
          = claimAmplitude Real.sin Real.pi bars i noise hasPeak peak) := by
  constructor
  · cases hasPeak <;> simp [rawAmplitude]
  · intro h
    subst h
    have hE : (0 : ℝ) ≤ Real.sin ((i : ℝ) / (bars : ℝ) * Real.pi * 4) * (5 / 10) + 5 / 10 := by
      nlinarith [Real.neg_one_le_sin ((i : ℝ) / (bars : ℝ) * Real.pi * 4)]
    simp [rawAmplitude, claimAmplitude, abs_mul, abs_of_nonneg hE]

theorem rawAmplitude_closed_form_witness :
    rawAmplitude Real.sin Real.pi 8 1 0 false 0
      = claimAmplitude Real.sin Real.pi 8 1 0 false 0 :=
  (rawAmplitude_closed_form 8 1 0 0 false).2 rfl

/-! ## RenderEngine: the per-bar colour rule of `drawWaveform` (lines 98-121) -/

/-- The hover progress of `drawWaveform` line 100:
`duration > 0 && previewTime >= 0 ? previewTime / duration : -1`. -/
def hoverProgressOf {α : Type} [LinearOrderedField α] (previewTime d : α) : α :=
  if 0 < d ∧ 0 ≤ previewTime then previewTime / d else -1

/-- The three `fillStyle` branches of lines 108-117: the translucent unplayed
colour, the hover preview colour, and the played colour carrying its computed
alpha intensity. -/
inductive BarColor (α : Type) where
  | unplayed : BarColor α
  | preview : BarColor α
  | played : α → BarColor α
deriving DecidableEq

/-- The colour chosen for bar `i` of `n` in `drawWaveform` (lines 98-117):
preview when `hoverProgress >= 0 && barPosition <= hoverProgress &&
barPosition > progress`, else played with intensity
`min(1, (progress - barPosition) * 10 + 0.6)` when `barPosition <= progress`,
else unplayed. -/
def barColor {α : Type} [LinearOrderedField α] (currentTime duration previewTime : α)
    (n i : ℕ) : BarColor α :=
  let progress := progressOf currentTime duration
  let hoverProgress := hoverProgressOf previewTime duration
  let barPosition := (i : α) / (n : α)
  if 0 ≤ hoverProgress ∧ barPosition ≤ hoverProgress ∧ progress < barPosition then
    .preview
  else if barPosition ≤ progress then
    .played (min 1 ((progress - barPosition) * 10 + 6 / 10))
  else
    .unplayed

/-- C7: the bar colouring rule.  (i) A bar is drawn in the preview colour
exactly when the hover progress is defined (non-negative) and the bar position
lies strictly past the playhead progress and at or before the hover progress.
(ii) Otherwise it is played, with intensity `min(1, (progress - p)·10 + 0.6)`,
exactly when its position is at or before the progress; the intensity is
non-decreasing as the bar falls further behind the playhead. (iii) In the
concrete scenario duration = 200, currentTime = 50, no hover: every bar with
position ≤ 0.25 gets the played style and every other bar the unplayed
style. -/
theorem barColor_ite {α : Type} [LinearOrderedField α] (currentTime duration previewTime : α)
    (n i : ℕ) :
    barColor currentTime duration previewTime n i =
      if 0 ≤ hoverProgressOf previewTime duration
          ∧ (i : α) / (n : α) ≤ hoverProgressOf previewTime duration
          ∧ progressOf currentTime duration < (i : α) / (n : α) then
        .preview
      else if (i : α) / (n : α) ≤ progressOf currentTime duration then
        .played (min 1 ((progressOf currentTime duration - (i : α) / (n : α)) * 10 + 6 / 10))
      else
        .unplayed := rfl

theorem barColor_rule (currentTime duration previewTime : ℚ) (n i : ℕ) :
    (barColor currentTime duration previewTime n i = .preview ↔
      (0 ≤ hoverProgressOf previewTime duration
        ∧ (i : ℚ) / (n : ℚ) ≤ hoverProgressOf previewTime duration
        ∧ progressOf currentTime duration < (i : ℚ) / (n : ℚ)))
    ∧ (¬ (0 ≤ hoverProgressOf previewTime duration
        ∧ (i : ℚ) / (n : ℚ) ≤ hoverProgressOf previewTime duration
        ∧ progressOf currentTime duration < (i : ℚ) / (n : ℚ)) →
      (barColor currentTime duration previewTime n i
          = .played (min 1 ((progressOf currentTime duration - (i : ℚ) / (n : ℚ)) * 10 + 6 / 10))
        ↔ (i : ℚ) / (n : ℚ) ≤ progressOf currentTime duration))
    ∧ (∀ p q : ℚ, p ≤ q →
        min 1 ((progressOf currentTime duration - q) * 10 + 6 / 10)
          ≤ min 1 ((progressOf currentTime duration - p) * 10 + 6 / 10))
    ∧ (((i : ℚ) / 150 ≤ 1 / 4 →
          barColor (50 : ℚ) 200 (-1) 150 i
            = .played (min 1 ((1 / 4 - (i : ℚ) / 150) * 10 + 6 / 10)))
        ∧ (1 / 4 < (i : ℚ) / 150 → barColor (50 : ℚ) 200 (-1) 150 i = .unplayed)) := by
  have hprog : progressOf (50 : ℚ) 200 = 1 / 4 := by norm_num [progressOf]
  have hhov : hoverProgressOf (-1 : ℚ) 200 = -1 := by norm_num [hoverProgressOf]
  have h150 : ((150 : ℕ) : ℚ) = 150 := by norm_num
  refine ⟨?_, ?_, ?_, ?_, ?_⟩
  · rw [barColor_ite]
    split
    · simp only [true_iff]
      tauto
    · split <;> simp_all
  · intro hnot
    rw [barColor_ite, if_neg hnot]
    split
    · simp_all
    · simp_all
  · intro p q hpq
    have : (progressOf currentTime duration - q) * 10 + 6 / 10
        ≤ (progressOf currentTime duration - p) * 10 + 6 / 10 := by nlinarith
    exact min_le_min le_rfl this
  · intro hle
    rw [barColor_ite, hprog, hhov, h150]
    rw [if_neg (by norm_num), if_pos hle]
  · intro hlt
    rw [barColor_ite, hprog, hhov, h150]
    rw [if_neg (by norm_num), if_neg (not_le.mpr hlt)]

theorem barColor_rule_witness :
    barColor (50 : ℚ) 200 (-1) 150 10
      = .played (min 1 ((1 / 4 - (10 : ℚ) / 150) * 10 + 6 / 10)) :=
  (barColor_rule 50 200 (-1) 150 10).2.2.2.1 (by norm_num)

/-! ## InteractionController: hover/drag state machine (lines 184-260, 275-282)

State: the four `useState` hooks relevant to interaction —
`isDragging` (line 20, initially false), `isHovering` (line 21, initially
false), `hoverTime` (line 22, initially 0) and `previewTime` (line 23,
initially -1, with -1 the cleared sentinel).

Events, with their handlers:
- `mouseEnter`: `onMouseEnter` (line 277) sets `isHovering := true`;
- `mouseLeave`: `onMouseLeave` (lines 278-281) clears `isHovering` and resets
  `previewTime := -1`;
- `mouseMove x`: a pointer move with the pointer over the widget.  While
  dragging, the document-level `mousemove` listener (registered by the effect
  at lines 246-260) fires `handleGlobalMouseMove → handleInteractionMove →
  handleSeek`, emitting one seek, and the widget's own `onMouseMove`
  (`handleMouseMove`, lines 195-208) is suppressed by its `!isDragging` guard;
  when not dragging there is no document listener, and `handleMouseMove`
  updates `previewTime`/`hoverTime` if `isHovering`;
- `globalMove x`: a document-level move with the pointer outside the widget —
  only the global listener can fire, and only while dragging;
- `mouseDown x`: `handleMouseDown`/`handleTouchStart` → `handleInteractionStart`
  (lines 184-187): sets `isDragging := true` and emits one seek immediately;
- `mouseUp`: the document `mouseup`/`touchend` listener `handleEnd`
  (lines 241-244), registered only while dragging: clears `isDragging` and
  `previewTime`.

The container is assumed measured (`containerRef.current` non-null), with
bounding box `left`/`width`; seeks carry `handleSeekTime left width duration
clientX`. -/

structure ScrubState where
  isDragging : Bool
  isHovering : Bool
  hoverTime : ℚ
  previewTime : ℚ
deriving DecidableEq

/-- The initial values of the `useState` hooks (lines 20-23). -/
def initState : ScrubState := ⟨false, false, 0, -1⟩

inductive Event where
  | mouseEnter : Event
  | mouseLeave : Event
  | mouseMove : ℚ → Event
  | globalMove : ℚ → Event
  | mouseDown : ℚ → Event
  | mouseUp : Event
deriving DecidableEq

/-- One interaction event: the successor state and the list of values passed
to `onSeek` while handling it. -/
def step (left width duration : ℚ) (s : ScrubState) : Event → ScrubState × List ℚ
  | .mouseEnter => ({ s with isHovering := true }, [])
  | .mouseLeave => ({ s with isHovering := false, previewTime := -1 }, [])
  | .mouseMove clientX =>
      if s.isDragging then
        (s, [handleSeekTime left width duration clientX])
      else if s.isHovering then
        let time := handleSeekTime left width duration clientX
        ({ s with previewTime := time, hoverTime := time }, [])
      else
        (s, [])
  | .globalMove clientX =>
      if s.isDragging then
        (s, [handleSeekTime left width duration clientX])
      else
        (s, [])
  | .mouseDown clientX =>
      ({ s with isDragging := true }, [handleSeekTime left width duration clientX])
  | .mouseUp =>
      if s.isDragging then
        ({ s with isDragging := false, previewTime := -1 }, [])
      else
        (s, [])

/-- Run a sequence of events, accumulating the emitted seek values. -/
def run (left width duration : ℚ) : ScrubState → List Event → ScrubState × List ℚ
  | s, [] => (s, [])
  | s, e :: es =>
      let r1 := step left width duration s e
      let r2 := run left width duration r1.1 es
      (r2.1, r1.2 ++ r2.2)

/-- Holds exactly for `mouseDown` events. -/
def isDownEvent : Event → Bool
  | .mouseDown _ => true
  | _ => false

/-- Holds exactly for (widget or global) pointer-move events. -/
def isMoveEvent : Event → Bool
  | .mouseMove _ => true
  | .globalMove _ => true
  | _ => false

/-- C1: drag lifecycle.  A pointer-down at `x` emits exactly the one seek
`pixelToTime (x - left) width duration` and enters the dragging phase; while
dragging, each move — over the widget or anywhere in the document — emits
exactly one further seek computed the same way from the current pointer
position, and stays dragging; a pointer-up while dragging emits nothing and
leaves the dragging phase; and once dragging is over, moves and ups emit
nothing. -/
theorem drag_lifecycle_seeks (left width duration : ℚ) (s : ScrubState) (x y : ℚ) :
    ((step left width duration s (.mouseDown x)).2
        = [pixelToTime (x - left) width duration]
      ∧ (step left width duration s (.mouseDown x)).1.isDragging = true)
    ∧ (s.isDragging = true →
        (step left width duration s (.mouseMove y)).2 = [pixelToTime (y - left) width duration]
        ∧ (step left width duration s (.mouseMove y)).1.isDragging = true
        ∧ (step left width duration s (.globalMove y)).2
            = [pixelToTime (y - left) width duration]
        ∧ (step left width duration s (.globalMove y)).1.isDragging = true)
    ∧ (s.isDragging = true →
        (step left width duration s .mouseUp).2 = []
        ∧ (step left width duration s .mouseUp).1.isDragging = false)
    ∧ (s.isDragging = false →
        (step left width duration s (.mouseMove y)).2 = []
        ∧ (step left width duration s (.globalMove y)).2 = []
        ∧ (step left width duration s .mouseUp).2 = []) := by
  refine ⟨⟨rfl, rfl⟩, ?_, ?_, ?_⟩
  · intro h
    simp [step, h, handleSeekTime]
  · intro h
    simp [step, h]
  · intro h
    refine ⟨?_, ?_, ?_⟩
    · by_cases hh : s.isHovering = true <;> simp [step, h, hh]
    · simp [step, h]
    · simp [step, h]

theorem drag_lifecycle_seeks_witness :
    (step 0 100 10 ⟨true, false, 0, -1⟩ (.mouseMove 5)).2
      = [pixelToTime ((5 : ℚ) - 0) 100 10] :=
  ((drag_lifecycle_seeks 0 100 10 ⟨true, false, 0, -1⟩ 5 5).2.1 rfl).1

/-- C9: hover without drag never seeks.  Starting from any non-dragging state,
a sequence of events containing no pointer-down emits no `onSeek` call at all
and never enters the dragging phase. -/
theorem hover_never_seeks (left width duration : ℚ) (s : ScrubState) (es : List Event)
    (hs : s.isDragging = false) (hd : ∀ e ∈ es, isDownEvent e = false) :
    (run left width duration s es).2 = []
      ∧ (run left width duration s es).1.isDragging = false := by
  induction es generalizing s with
  | nil => exact ⟨rfl, hs⟩
  | cons e es ih =>
      have he : isDownEvent e = false := hd e (List.mem_cons_self e es)
      have hd' : ∀ e' ∈ es, isDownEvent e' = false := fun e' h => hd e' (List.mem_cons_of_mem e h)
      have hstep : (step left width duration s e).2 = []
          ∧ (step left width duration s e).1.isDragging = false := by
        cases e with
        | mouseEnter => exact ⟨rfl, hs⟩
        | mouseLeave => exact ⟨rfl, hs⟩
        | mouseMove x =>
            by_cases hh : s.isHovering = true <;> simp [step, hs, hh]
        | globalMove x => simp [step, hs]
        | mouseDown x => simp [isDownEvent] at he
        | mouseUp => simp [step, hs]
      have := ih (step left width duration s e).1 hstep.2 hd'
      simp [run, hstep.1, this.1, this.2]

theorem hover_never_seeks_witness :
    (run 0 100 10 initState [Event.mouseEnter, Event.mouseMove 5, Event.mouseLeave]).2 = []
      ∧ (run 0 100 10 initState [Event.mouseEnter, Event.mouseMove 5,
          Event.mouseLeave]).1.isDragging = false :=
  hover_never_seeks 0 100 10 initState _ rfl (by decide)

theorem run_dragging_moves_fixed (left width duration : ℚ) (moves : List Event) :
    ∀ s : ScrubState, s.isDragging = true → (∀ e ∈ moves, isMoveEvent e = true) →
      (run left width duration s moves).1 = s := by
  induction moves with
  | nil => intro s _ _; rfl
  | cons e es ih =>
      intro s hs hm
      have he : isMoveEvent e = true := hm e (List.mem_cons_self e es)
      have h1 : (step left width duration s e).1 = s := by
        cases e with
        | mouseMove c => simp [step, hs]
        | globalMove c => simp [step, hs]
        | mouseEnter => simp [isMoveEvent] at he
        | mouseLeave => simp [isMoveEvent] at he
        | mouseDown c => simp [isMoveEvent] at he
        | mouseUp => simp [isMoveEvent] at he
      have h2 : (run left width duration s (e :: es)).1
          = (run left width duration (step left width duration s e).1 es).1 := rfl
      rw [h2, h1, ih s hs (fun e' h => hm e' (List.mem_cons_of_mem e h))]

/-- C10: while dragging, pointer moves never touch `previewTime`.
`handleMouseMove` is guarded by `!isDragging` and `handleInteractionMove` only
calls `handleSeek`, so any sequence of (widget or global) move events from a
dragging state leaves `previewTime` — and the whole state — at the value it
had when the drag began; the pointer-up then clears it to the -1 sentinel.
A pointer-down itself also leaves `previewTime` untouched. -/
theorem drag_preserves_previewTime (left width duration : ℚ) (s : ScrubState)
    (moves : List Event) (x : ℚ)
    (hs : s.isDragging = true) (hm : ∀ e ∈ moves, isMoveEvent e = true) :
    (run left width duration s moves).1.previewTime = s.previewTime
    ∧ (run left width duration s moves).1.isDragging = true
    ∧ (step left width duration (run left width duration s moves).1 .mouseUp).1.previewTime = -1
    ∧ (step left width duration s (.mouseDown x)).1.previewTime = s.previewTime := by
  have hfix := run_dragging_moves_fixed left width duration moves s hs hm
  refine ⟨by rw [hfix], by rw [hfix]; exact hs, ?_, rfl⟩
  rw [hfix]
  simp [step, hs]

theorem drag_preserves_previewTime_witness :
    (run 0 100 10 ⟨true, false, 0, 5⟩ [Event.mouseMove 3, Event.globalMove 7]).1.previewTime
      = 5 :=
  (drag_preserves_previewTime 0 100 10 ⟨true, false, 0, 5⟩
    [Event.mouseMove 3, Event.globalMove 7] 0 rfl (by decide)).1

/-- The InteractionState invariant of claim C6: `previewTime` is either the
cleared sentinel -1, or a value in [0, duration] while the widget is hovered
or dragged. -/
def PreviewInv (duration : ℚ) (s : ScrubState) : Prop :=
  s.previewTime = -1 ∨
    (0 ≤ s.previewTime ∧ s.previewTime ≤ duration
      ∧ (s.isHovering = true ∨ s.isDragging = true))

theorem step_preservesPreviewInv (left width duration : ℚ) (hd : 0 ≤ duration)
    (s : ScrubState) (e : Event) (h : PreviewInv duration s) :
    PreviewInv duration (step left width duration s e).1 := by
  cases e with
  | mouseEnter =>
      rcases h with h | ⟨h1, h2, _⟩
      · exact Or.inl h
      · exact Or.inr ⟨h1, h2, Or.inl rfl⟩
  | mouseLeave => exact Or.inl rfl
  | mouseMove c =>
      by_cases hdrag : s.isDragging = true
      · have hst : (step left width duration s (.mouseMove c)).1 = s := by simp [step, hdrag]
        rw [hst]; exact h
      · by_cases hh : s.isHovering = true
        · have hst : (step left width duration s (.mouseMove c)).1
              = ⟨s.isDragging, s.isHovering, handleSeekTime left width duration c,
                handleSeekTime left width duration c⟩ := by
            simp [step, hdrag, hh]
          rw [hst]
          refine Or.inr ⟨?_, ?_, Or.inl hh⟩
          · exact mul_nonneg (clamp01_nonneg _) hd
          · exact mul_le_of_le_one_left hd (clamp01_le_one _)
        · have hst : (step left width duration s (.mouseMove c)).1 = s := by
            simp [step, hdrag, hh]
          rw [hst]; exact h
  | globalMove c =>
      have hst : (step left width duration s (.globalMove c)).1 = s := by
        by_cases hdrag : s.isDragging = true <;> simp [step, hdrag]
      rw [hst]; exact h
  | mouseDown c =>
      rcases h with h | ⟨h1, h2, _⟩
      · exact Or.inl h
      · exact Or.inr ⟨h1, h2, Or.inr rfl⟩
  | mouseUp =>
      by_cases hdrag : s.isDragging = true
      · have hst : (step left width duration s .mouseUp).1
            = { s with isDragging := false, previewTime := -1 } := by simp [step, hdrag]
        rw [hst]; exact Or.inl rfl
      · have hst : (step left width duration s .mouseUp).1 = s := by simp [step, hdrag]
        rw [hst]; exact h

theorem run_preservesPreviewInv (left width duration : ℚ) (hd : 0 ≤ duration)
    (es : List Event) :
    ∀ s : ScrubState, PreviewInv duration s →
      PreviewInv duration (run left width duration s es).1 := by
  induction es with
  | nil => intro s h; exact h
  | cons e es ih =>
      intro s h
      exact ih _ (step_preservesPreviewInv left width duration hd s e h)

/-- C6: starting from the initial state, after any sequence of interaction
events (for positive width and non-negative duration), whenever `previewTime`
is not the cleared sentinel the widget is hovered or dragged and
`0 ≤ previewTime ≤ duration`; and whenever the phase is Idle (neither
hovering nor dragging) `previewTime` is cleared. -/
theorem previewTime_invariant (left width duration : ℚ) (hw : 0 < width)
    (hd : 0 ≤ duration) (es : List Event) :
    ((run left width duration initState es).1.previewTime ≠ -1 →
        0 ≤ (run left width duration initState es).1.previewTime
        ∧ (run left width duration initState es).1.previewTime ≤ duration
        ∧ ((run left width duration initState es).1.isHovering = true
            ∨ (run left width duration initState es).1.isDragging = true))
    ∧ ((run left width duration initState es).1.isHovering = false
        ∧ (run left width duration initState es).1.isDragging = false →
          (run left width duration initState es).1.previewTime = -1) := by
  have h := run_preservesPreviewInv left width duration hd es initState (Or.inl rfl)
  constructor
  · intro h0
    rcases h with h | h
    · exact absurd h h0
    · exact h
  · rintro ⟨hh, hdr⟩
    rcases h with h | ⟨_, _, h3⟩
    · exact h
    · rcases h3 with h3 | h3
      · rw [h3] at hh
        exact absurd hh (by simp)
      · rw [h3] at hdr
        exact absurd hdr (by simp)

theorem previewTime_invariant_witness :
    ((run 0 100 10 initState [Event.mouseEnter, Event.mouseMove 5]).1.previewTime ≠ -1 →
        0 ≤ (run 0 100 10 initState [Event.mouseEnter, Event.mouseMove 5]).1.previewTime
        ∧ (run 0 100 10 initState [Event.mouseEnter, Event.mouseMove 5]).1.previewTime ≤ 10
        ∧ ((run 0 100 10 initState [Event.mouseEnter, Event.mouseMove 5]).1.isHovering = true
            ∨ (run 0 100 10 initState [Event.mouseEnter, Event.mouseMove 5]).1.isDragging
                = true))
    ∧ ((run 0 100 10 initState [Event.mouseEnter, Event.mouseMove 5]).1.isHovering = false
        ∧ (run 0 100 10 initState [Event.mouseEnter, Event.mouseMove 5]).1.isDragging = false →
          (run 0 100 10 initState [Event.mouseEnter, Event.mouseMove 5]).1.previewTime = -1) :=
  previewTime_invariant 0 100 10 (by norm_num) (by norm_num)
    [Event.mouseEnter, Event.mouseMove 5]

/-! ## A model of JavaScript number special values

`handleSeek` divides by `rect.width` without guarding against zero, and
`formatTime` divides and takes `%` on arbitrary numbers, so the IEEE-754
special values Infinity, -Infinity and NaN matter on those paths.  `JSNum` is
a finite-precision-free model: an exact rational together with the three
special values (the distinction between +0 and -0 is not modelled; no negative
zero arises on the modelled paths). -/

inductive JSNum where
  | num : ℚ → JSNum
  | posInf : JSNum
  | negInf : JSNum
  | nan : JSNum
deriving DecidableEq

/-- JavaScript `/`: finite division, with `x / 0` giving ±Infinity for
non-zero `x` and NaN for `0 / 0`; an infinity divided by a finite number
keeps (or flips) its sign; a finite number divided by an infinity is 0;
NaN and Infinity/Infinity give NaN. -/
def jsDiv : JSNum → JSNum → JSNum
  | .num a, .num b =>
      if b = 0 then (if a = 0 then .nan else if 0 < a then .posInf else .negInf)
      else .num (a / b)
  | .posInf, .num b => if 0 ≤ b then .posInf else .negInf
  | .negInf, .num b => if 0 ≤ b then .negInf else .posInf
  | .num _, .posInf => .num 0
  | .num _, .negInf => .num 0
  | _, _ => .nan

/-- Truncation toward zero, as JavaScript `%` uses. -/
def truncQ (q : ℚ) : ℤ := if 0 ≤ q then ⌊q⌋ else ⌈q⌉

/-- JavaScript `%`: for finite operands `a - b * truncate(a / b)` (sign
follows the dividend), NaN when the dividend is infinite or the divisor is
zero, and the dividend itself when the divisor is infinite. -/
def jsMod : JSNum → JSNum → JSNum
  | .num a, .num b => if b = 0 then .nan else .num (a - b * (truncQ (a / b) : ℚ))
  | .num a, .posInf => .num a
  | .num a, .negInf => .num a
  | _, _ => .nan

/-- JavaScript `Math.floor`: floors finite values, fixes ±Infinity and NaN. -/
def jsFloor : JSNum → JSNum
  | .num a => .num ⌊a⌋
  | x => x

/-- JavaScript `Math.min` of two numbers: NaN if either argument is NaN. -/
def jsMin : JSNum → JSNum → JSNum
  | .nan, _ => .nan
  | _, .nan => .nan
  | .negInf, _ => .negInf
  | _, .negInf => .negInf
  | .posInf, b => b
  | a, .posInf => a
  | .num a, .num b => .num (min a b)

/-- JavaScript `Math.max` of two numbers: NaN if either argument is NaN. -/
def jsMax : JSNum → JSNum → JSNum
  | .nan, _ => .nan
  | _, .nan => .nan
  | .posInf, _ => .posInf
  | _, .posInf => .posInf
  | .negInf, b => b
  | a, .negInf => a
  | .num a, .num b => .num (max a b)

/-- JavaScript `*`: NaN propagates; `0 * ±Infinity` is NaN; otherwise signs
multiply. -/
def jsMul : JSNum → JSNum → JSNum
  | .nan, _ => .nan
  | _, .nan => .nan
  | .num a, .num b => .num (a * b)
  | .num a, .posInf => if a = 0 then .nan else if 0 < a then .posInf else .negInf
  | .num a, .negInf => if a = 0 then .nan else if 0 < a then .negInf else .posInf
  | .posInf, .num b => if b = 0 then .nan else if 0 < b then .posInf else .negInf
  | .negInf, .num b => if b = 0 then .nan else if 0 < b then .negInf else .posInf
  | .posInf, .posInf => .posInf
  | .posInf, .negInf => .negInf
  | .negInf, .posInf => .negInf
  | .negInf, .negInf => .posInf

/-- JavaScript falsiness of a number: `!x` is true exactly for 0 (and -0)
and NaN. -/
def jsFalsy : JSNum → Bool
  | .num a => a = 0
  | .nan => true
  | _ => false

/-- JavaScript `isNaN` on a number. -/
def jsIsNaN : JSNum → Bool
  | .nan => true
  | _ => false

/-- JavaScript `Number.prototype.toString` restricted to the values `formatTime` prints:
outputs of `Math.floor`, i.e. integer-valued numbers, ±Infinity and NaN. -/
def jsIntString : JSNum → String
  | .num a => toString ⌊a⌋
  | .posInf => "Infinity"
  | .negInf => "-Infinity"
  | .nan => "NaN"

/-- JavaScript `padStart(2, "0")` on a string. -/
def padStart2 (s : String) : String :=
  if 2 ≤ s.length then s else String.mk (List.replicate (2 - s.length) '0') ++ s

/-- The source's `formatTime` (lines 262-267): "0:00" for falsy or NaN input, otherwise
`Math.floor(seconds / 60)` minutes and zero-padded `Math.floor(seconds % 60)`
seconds joined by `':'`. -/
def formatTime (seconds : JSNum) : String :=
  if jsFalsy seconds || jsIsNaN seconds then "0:00"
  else
    jsIntString (jsFloor (jsDiv seconds (.num 60))) ++ ":"
      ++ padStart2 (jsIntString (jsFloor (jsMod seconds (.num 60))))

/-- The source's `handleSeek` (lines 210-220) under the JavaScript number model:
`x = clientX - rect.left`, `progress = Math.max(0, Math.min(1, x / width))`,
`seekTime = progress * duration`; the returned value is what is passed to
`onSeek`. -/
def handleSeekJS (clientX left width duration : ℚ) : JSNum :=
  jsMul (jsMax (.num 0) (jsMin (.num 1) (jsDiv (.num (clientX - left)) (.num width))))
    (.num duration)

/-- The source's `handleMouseMove` (lines 195-208) computes the preview time by the same
expression as `handleSeek`. -/
def hoverTimeJS (clientX left width duration : ℚ) : JSNum :=
  jsMul (jsMax (.num 0) (jsMin (.num 1) (jsDiv (.num (clientX - left)) (.num width))))
    (.num duration)

theorem jsDiv_num_num (a b : ℚ) :
    jsDiv (.num a) (.num b)
      = if b = 0 then (if a = 0 then .nan else if 0 < a then .posInf else .negInf)
        else .num (a / b) := rfl

theorem jsMod_num_num (a b : ℚ) :
    jsMod (.num a) (.num b)
      = if b = 0 then .nan else .num (a - b * (truncQ (a / b) : ℚ)) := rfl

theorem jsFloor_num (a : ℚ) : jsFloor (.num a) = .num (⌊a⌋ : ℚ) := rfl

theorem jsIntString_num (a : ℚ) : jsIntString (.num a) = toString ⌊a⌋ := rfl

theorem jsMin_num_num (a b : ℚ) : jsMin (.num a) (.num b) = .num (min a b) := rfl

theorem jsMin_num_posInf (a : ℚ) : jsMin (.num a) .posInf = .num a := rfl

theorem jsMin_num_negInf (a : ℚ) : jsMin (.num a) .negInf = .negInf := rfl

theorem jsMin_num_nan (a : ℚ) : jsMin (.num a) .nan = .nan := rfl

theorem jsMax_num_num (a b : ℚ) : jsMax (.num a) (.num b) = .num (max a b) := rfl

theorem jsMax_num_negInf (a : ℚ) : jsMax (.num a) .negInf = .num a := rfl

theorem jsMax_num_nan (a : ℚ) : jsMax (.num a) .nan = .nan := rfl

theorem jsMul_num_num (a b : ℚ) : jsMul (.num a) (.num b) = .num (a * b) := rfl

theorem jsMul_nan_num (b : ℚ) : jsMul .nan (.num b) = .nan := rfl

/-- C5 counterexample: with a zero-width container the code does not
degenerate every position to time 0.  At `clientX = 5`, `left = 0`,
`width = 0`, `duration = 100`, JavaScript computes `5 / 0 = Infinity`,
`Math.min(1, Infinity) = 1`, `Math.max(0, 1) = 1`, so `onSeek` receives
`1 * 100 = 100`, not 0. -/
theorem handleSeek_zero_width_counterexample :
    handleSeekJS 5 0 0 100 ≠ JSNum.num 0 ∧ handleSeekJS 5 0 0 100 = JSNum.num 100 := by
  have h : handleSeekJS 5 0 0 100 = JSNum.num 100 := by
    unfold handleSeekJS
    rw [jsDiv_num_num, if_pos rfl, if_neg (by norm_num : ¬(5 - 0 : ℚ) = 0),
      if_pos (by norm_num : (0 : ℚ) < 5 - 0), jsMin_num_posInf, jsMax_num_num,
      jsMul_num_num, max_eq_right (by norm_num : (0 : ℚ) ≤ 1)]
    norm_num
  refine ⟨?_, h⟩
  rw [h]
  intro hc
  have h100 : (100 : ℚ) = 0 := by injection hc
  norm_num at h100

/-- C5 amended: with `widthPx = 0`, a pointer strictly left of the container
edge yields seek time 0, a pointer strictly right of it yields the full
`duration` (progress degenerates to 1, not 0), and a pointer exactly at the
edge yields NaN (`0 / 0`); the preview time of `handleMouseMove` is computed
by the identical expression. -/
theorem handleSeek_zero_width_cases (clientX left duration : ℚ) :
    (clientX < left → handleSeekJS clientX left 0 duration = JSNum.num 0)
    ∧ (left < clientX → handleSeekJS clientX left 0 duration = JSNum.num duration)
    ∧ (clientX = left → handleSeekJS clientX left 0 duration = JSNum.nan)
    ∧ hoverTimeJS clientX left 0 duration = handleSeekJS clientX left 0 duration := by
  refine ⟨?_, ?_, ?_, rfl⟩
  · intro h
    have hx : ¬ (clientX - left = 0) := sub_ne_zero.mpr (ne_of_lt h)
    have hneg : ¬ ((0 : ℚ) < clientX - left) := by linarith
    unfold handleSeekJS
    rw [jsDiv_num_num, if_pos rfl, if_neg hx, if_neg hneg, jsMin_num_negInf,
      jsMax_num_negInf, jsMul_num_num]
    norm_num
  · intro h
    have hpos : (0 : ℚ) < clientX - left := by linarith
    unfold handleSeekJS
    rw [jsDiv_num_num, if_pos rfl, if_neg hpos.ne', if_pos hpos, jsMin_num_posInf,
      jsMax_num_num, jsMul_num_num, max_eq_right (by norm_num : (0 : ℚ) ≤ 1)]
    norm_num
  · intro h
    have hx : clientX - left = 0 := sub_eq_zero.mpr h
    unfold handleSeekJS
    rw [jsDiv_num_num, if_pos rfl, if_pos hx, jsMin_num_nan, jsMax_num_nan, jsMul_nan_num]

theorem handleSeek_zero_width_cases_witness :
    handleSeekJS 0 1 0 10 = JSNum.num 0 :=
  (handleSeek_zero_width_cases 0 1 10).1 (by norm_num)

/-- C8 counterexample: `formatTime` does not map every non-finite input to
`"0:00"`: `Infinity` passes the `!seconds || isNaN(seconds)` guard, and
`Math.floor(Infinity / 60)` prints as `Infinity` while `Infinity % 60` is
NaN, so `formatTime(Infinity) = "Infinity:NaN"`. -/
theorem formatTime_infinity_counterexample :
    formatTime JSNum.posInf = "Infinity:NaN" ∧ formatTime JSNum.posInf ≠ "0:00" := by
  have h : formatTime JSNum.posInf = "Infinity:NaN" := by
    unfold formatTime
    rw [if_neg (by decide : ¬ ((jsFalsy JSNum.posInf || jsIsNaN JSNum.posInf) = true))]
    decide
  exact ⟨h, by rw [h]; decide⟩

/-- C8 amended: `formatTime` formats finite non-negative seconds as M:SS with
floored zero-padded seconds and no leading zero on minutes
(`0 ↦ "0:00"`, `65 ↦ "1:05"`, `125.4 ↦ "2:05"`, `3600 ↦ "60:00"`), and NaN
(the non-numeric case) yields `"0:00"`; the infinite inputs are not treated
as 0 — they format as `"Infinity:NaN"` / `"-Infinity:NaN"`. -/
theorem formatTime_num_eval (q : ℚ) (hq : ¬ q = 0) :
    formatTime (JSNum.num q)
      = toString ⌊q / 60⌋ ++ ":" ++ padStart2 (toString ⌊q - 60 * (truncQ (q / 60) : ℚ)⌋) := by
  unfold formatTime
  rw [if_neg (by simp [jsFalsy, jsIsNaN, hq]), jsDiv_num_num,
    if_neg (by norm_num : ¬ (60 : ℚ) = 0), jsMod_num_num,
    if_neg (by norm_num : ¬ (60 : ℚ) = 0), jsFloor_num, jsFloor_num, jsIntString_num,
    jsIntString_num, Int.floor_intCast, Int.floor_intCast]

theorem formatTime_values :
    formatTime (JSNum.num 0) = "0:00"
    ∧ formatTime (JSNum.num 65) = "1:05"
    ∧ formatTime (JSNum.num (1254 / 10)) = "2:05"
    ∧ formatTime (JSNum.num 3600) = "60:00"
    ∧ formatTime JSNum.nan = "0:00"
    ∧ formatTime JSNum.posInf = "Infinity:NaN"
    ∧ formatTime JSNum.negInf = "-Infinity:NaN" := by
  have h0 : formatTime (JSNum.num 0) = "0:00" := by
    unfold formatTime
    rw [if_pos (by simp [jsFalsy])]
  have h65 : formatTime (JSNum.num 65) = "1:05" := by
    rw [formatTime_num_eval 65 (by norm_num)]
    norm_num [truncQ]
    decide
  have h125 : formatTime (JSNum.num (1254 / 10)) = "2:05" := by
    rw [formatTime_num_eval (1254 / 10) (by norm_num)]
    norm_num [truncQ]
    decide
  have h3600 : formatTime (JSNum.num 3600) = "60:00" := by
    rw [formatTime_num_eval 3600 (by norm_num)]
    norm_num [truncQ]
    decide
  have hnan : formatTime JSNum.nan = "0:00" := by
    unfold formatTime
    rw [if_pos (by decide : (jsFalsy JSNum.nan || jsIsNaN JSNum.nan) = true)]
  have hpos : formatTime JSNum.posInf = "Infinity:NaN" := by
    unfold formatTime
    rw [if_neg (by decide : ¬ ((jsFalsy JSNum.posInf || jsIsNaN JSNum.posInf) = true))]
    decide
  have hneg : formatTime JSNum.negInf = "-Infinity:NaN" := by
    unfold formatTime
    rw [if_neg (by decide : ¬ ((jsFalsy JSNum.negInf || jsIsNaN JSNum.negInf) = true))]
    decide
  exact ⟨h0, h65, h125, h3600, hnan, hpos, hneg⟩

end WaveformScrubberSpec
